import Mathlib

/-!
# Verification development for `direct_loader.py`

Shallow embedding of the direct TimescaleDB data loader:

* `generate_reading` embeds the per-reading synthesis function.  Randomness is
  made explicit: each call consumes one `Entropy` record holding the underlying
  samples of the three random draws.  `random.uniform a b` is `a + (b - a) * u`
  for a unit sample `u` (CPython's implementation), and `random.gauss mu sigma`
  is `mu + sigma * g` for a standard-normal sample `g` (unbounded, so `g` is an
  arbitrary rational).  Real-valued measurements are modelled as rationals.
* Timestamps are modelled as integral minutes (all deltas in the loader are
  whole minutes: the 5-minute interval and the whole-day window), with
  `hour = t / 60 % 24` matching `datetime.hour ∈ [0, 24)`.
* `load_data`'s generation loop is embedded in two layers.  `schedule` is
  the `while current_time <= end_time` sweep, `readingsRun` the time-outer,
  meter-inner synthesis of the full cartesian sequence (consuming an entropy
  stream), and `batchesRun` its accumulate-and-flush batching including the
  final flush of a non-empty remainder — the loop's data path in isolation.
  `loadRun` is the whole loop including its one value-dependent error path:
  the progress report executed after every in-loop flush computes
  `pct = 100 * total_inserted / total_readings`, and `total_readings`
  (`meters * 288 * days`) is zero when `days = 0`, so that flush raises
  `ZeroDivisionError` and the run aborts after committing the flushed batch.
  `loadRun` returns the delivered batches, the readings actually generated
  before any abort, and a completion flag; `loadLoop_complete` shows it
  coincides with `batchesRun`/`readingsRun` whenever `total_readings` is
  non-zero.  Database connectivity, printing and the wall-clock figures
  (whose divisions are guarded in the source) have no influence on the
  generated data and are not modelled.
-/

namespace DirectLoader

/-- The random samples consumed by one call of `generate_reading`:
`powerU` is the unit-interval sample underlying the `random.uniform` power
draw, `voltageG` and `frequencyG` are the standard-normal samples underlying
the two `random.gauss` draws. -/
structure Entropy where
  powerU : ℚ
  voltageG : ℚ
  frequencyG : ℚ

/-- `random.uniform a b` applied to the unit sample `u`. -/
def uniform (a b u : ℚ) : ℚ := a + (b - a) * u

/-- `random.gauss mu sigma` applied to the standard-normal sample `g`. -/
def gauss (mu sigma g : ℚ) : ℚ := mu + sigma * g

/-- `timestamp.hour` for a timestamp counted in minutes. -/
def hourOf (t : Int) : Int := t / 60 % 24

/-- The tuple `(timestamp, meter_id, power, voltage, current, frequency,
energy)` returned by `generate_reading`. -/
structure Reading where
  timestamp : Int
  meter_id : String
  power : ℚ
  voltage : ℚ
  current : ℚ
  frequency : ℚ
  energy : ℚ

/-- `generate_reading(meter_id, timestamp)` from `direct_loader.py`
(lines 44-80), with the three random draws taken from `e`. -/
def generate_reading (e : Entropy) (meter_id : String) (timestamp : Int) :
    Reading :=
  let hour := hourOf timestamp
  let base_power :=
    if (6 ≤ hour ∧ hour ≤ 9) ∨ (18 ≤ hour ∧ hour ≤ 22) then
      uniform 1500 3000 e.powerU
    else if 23 ≤ hour ∨ hour ≤ 5 then
      uniform 200 500 e.powerU
    else
      uniform 800 1500 e.powerU
  let voltage := gauss 230 5 e.voltageG
  let current := base_power / voltage
  let frequency := gauss 50 (1/10) e.frequencyG
  let energy := base_power * (5/60) / 1000
  ⟨timestamp, meter_id, base_power, voltage, current, frequency, energy⟩

/-- Decimal digit characters of `i`, most significant digit first. -/
def decChars (i : Nat) : List Char :=
  ((Nat.digits 10 i).reverse).map (fun d => Char.ofNat (48 + d))

/-- Python `f"{i:010d}"`: the decimal representation of `i`, zero-padded on
the left to a minimum width of 10. -/
def meterId (i : Nat) : String :=
  ⟨List.replicate (10 - (decChars i).length) '0' ++ decChars i⟩

/-- `meters = [f"{i:010d}" for i in range(1, args.meters + 1)]` (line 113). -/
def meterList (n : Nat) : List String := (List.range' 1 n).map meterId

/-- `interval = timedelta(minutes=5)` (line 120), in minutes. -/
def interval_minutes : Int := 5

/-- `start_time = end_time - timedelta(days=args.days)` (line 117), with
`now` the value of `datetime.now()` in minutes. -/
def start_time (now : Int) (days : Nat) : Int := now - days * 1440

/-- The timestamp sweep `while current_time <= end_time: ...;
current_time += interval` (lines 141-171). -/
def genTimes (endT cur : Int) : List Int :=
  if _h : cur ≤ endT then cur :: genTimes endT (cur + interval_minutes) else []
termination_by (endT + 1 - cur).toNat
decreasing_by unfold interval_minutes; omega

/-- All timestamps visited by the generation loop. -/
def schedule (now : Int) (days : Nat) : List Int :=
  genTimes now (start_time now days)

/-- The `(current_time, meter_id)` pairs in generation order: outer loop over
time, inner loop over meters (lines 142-143). -/
def runPairs (now : Int) (days nMeters : Nat) : List (Int × String) :=
  (schedule now days).flatMap fun t => (meterList nMeters).map fun m => (t, m)

/-- The full cartesian sequence of readings the nested loops synthesize
(line 145), consuming the entropy stream `ent` one record per reading in
generation order.  This is the loop's data path in isolation; the program
generates exactly this sequence unless the line-164 progress report aborts
the run (see `loadRun`), in which case it generates a prefix of it. -/
def readingsRun (ent : Nat → Entropy) (now : Int) (days nMeters : Nat) :
    List Reading :=
  (runPairs now days nMeters).enum.map fun p =>
    generate_reading (ent p.1) p.2.2 p.2.1

/-- The batching loop: append each reading to the buffer and flush whenever
`len(batch) >= batch_size` (lines 146-169).  Returns the flushed batches in
order together with the final buffer contents. -/
def flushLoop (bs : Nat) :
    List Reading → List Reading → List (List Reading) × List Reading
  | [], buf => ([], buf)
  | r :: rs, buf =>
    let buf2 := buf ++ [r]
    if bs ≤ buf2.length then
      let rest := flushLoop bs rs []
      (buf2 :: rest.1, rest.2)
    else
      flushLoop bs rs buf2

/-- The batches the loop's data path delivers to the sink: the batches
flushed inside the loop, plus the remainder flushed once at the end if
non-empty (lines 174-183).  Like `readingsRun`, this isolates the batching
from the line-164 abort; `loadLoop_complete` shows the program delivers
exactly these batches whenever `total_readings` is non-zero. -/
def batchesRun (ent : Nat → Entropy) (bs : Nat) (now : Int)
    (days nMeters : Nat) : List (List Reading) :=
  let p := flushLoop bs (readingsRun ent now days nMeters) []
  if p.2.isEmpty then p.1 else p.1 ++ [p.2]

/-- `total_readings = args.meters * readings_per_day * args.days` with
`readings_per_day = 288` (lines 121-122): the reporting figure displayed by
the progress report, and the divisor of its percent computation. -/
def total_readings (days nMeters : Nat) : Nat := nMeters * 288 * days

/-- The generation loop with its progress report.  On each in-loop flush
(lines 149-169) the batch is inserted and committed, and the progress report
then computes `pct = 100 * total_inserted / total_readings` (line 164) —
a `ZeroDivisionError` when `total_readings = 0`, aborting the run right
after the commit.  The function consumes the would-be reading sequence
(generation itself is total, so the prefix consumed before an abort is
exactly what the program synthesizes) and returns the batches delivered to
the sink, the readings actually generated, and `true` iff the run completed
(reaching the final flush of lines 174-183). -/
def loadLoop (bs totalRows : Nat) :
    List Reading → List Reading →
      List (List Reading) × List Reading × Bool
  | [], buf => (if buf.isEmpty then [] else [buf], [], true)
  | r :: rs, buf =>
    let buf2 := buf ++ [r]
    if bs ≤ buf2.length then
      if totalRows = 0 then
        ([buf2], [r], false)
      else
        let rest := loadLoop bs totalRows rs []
        (buf2 :: rest.1, r :: rest.2.1, rest.2.2)
    else
      let rest := loadLoop bs totalRows rs buf2
      (rest.1, r :: rest.2.1, rest.2.2)

/-- A whole run of `load_data`'s generation loop (lines 135-183) including
the line-164 division: the delivered batches, the readings actually
generated before any abort, and the completion flag. -/
def loadRun (ent : Nat → Entropy) (bs : Nat) (now : Int)
    (days nMeters : Nat) : List (List Reading) × List Reading × Bool :=
  loadLoop bs (total_readings days nMeters)
    (readingsRun ent now days nMeters) []

/-- Spec-side band: Peak hours 6-9 and 18-22. -/
def peakHour (h : Int) : Prop := (6 ≤ h ∧ h ≤ 9) ∨ (18 ≤ h ∧ h ≤ 22)

/-- Spec-side band: Night hour 23 and hours 0-5. -/
def nightHour (h : Int) : Prop := 23 ≤ h ∨ h ≤ 5

/-- Spec-side band: Daytime hours 10-17. -/
def dayHour (h : Int) : Prop := 10 ≤ h ∧ h ≤ 17

/-- Spec-side description of the timestamp sweep: ascending from `start_time`,
stepping by 5 minutes, `days * 288 + 1` stamps ending at `end_time`. -/
def ascendingTimes (now : Int) (days : Nat) : List Int :=
  (List.range (days * 288 + 1)).map
    fun k : Nat => start_time now days + 5 * (k : Int)

/-! ## Helper lemmas -/

theorem uniform_bounds {a b u : ℚ} (hab : a ≤ b) (h0 : 0 ≤ u) (h1 : u ≤ 1) :
    a ≤ uniform a b u ∧ uniform a b u ≤ b := by
  unfold uniform
  constructor
  · nlinarith
  · nlinarith

theorem hourOf_nonneg (t : Int) : 0 ≤ hourOf t :=
  Int.emod_nonneg _ (by omega)

theorem hourOf_lt_24 (t : Int) : hourOf t < 24 :=
  Int.emod_lt_of_pos _ (by omega)

/-- Peeling one step off an arithmetic progression of step 5. -/
theorem range_map_shift (c : Int) (m : Nat) :
    (List.range (m + 1)).map (fun k : Nat => c + 5 * (k : Int)) =
      c :: (List.range m).map (fun k : Nat => c + 5 + 5 * (k : Int)) := by
  rw [List.range_succ_eq_map]
  simp only [List.map_cons, List.map_map]
  congr 1
  · simp
  · apply List.map_congr_left
    intro k _
    simp only [Function.comp_apply, Nat.succ_eq_add_one]
    push_cast
    ring

/-- Closed form of the `while` sweep: the inclusive arithmetic progression
from `cur` to `endT` with step 5. -/
theorem genTimes_eq (endT : Int) :
    ∀ cur : Int, genTimes endT cur =
      if cur ≤ endT then
        (List.range (((endT - cur) / 5).toNat + 1)).map
          (fun k : Nat => cur + 5 * (k : Int))
      else [] := by
  suffices h : ∀ (n : Nat) (cur : Int), (endT + 1 - cur).toNat ≤ n →
      genTimes endT cur =
        if cur ≤ endT then
          (List.range (((endT - cur) / 5).toNat + 1)).map
            (fun k : Nat => cur + 5 * (k : Int))
        else [] by
    intro cur
    exact h (endT + 1 - cur).toNat cur le_rfl
  intro n
  induction n with
  | zero =>
    intro cur hcur
    have hgt : ¬ cur ≤ endT := by omega
    rw [genTimes, dif_neg hgt, if_neg hgt]
  | succ n ih =>
    intro cur hcur
    by_cases hle : cur ≤ endT
    · rw [genTimes, dif_pos hle, if_pos hle]
      have hstep : cur + interval_minutes = cur + 5 := rfl
      rw [hstep, ih (cur + 5) (by omega)]
      by_cases hle5 : cur + 5 ≤ endT
      · rw [if_pos hle5]
        have hdiv : ((endT - cur) / 5).toNat =
            ((endT - (cur + 5)) / 5).toNat + 1 := by omega
        rw [hdiv]
        conv_rhs => rw [range_map_shift]
      · rw [if_neg hle5]
        have hdiv : ((endT - cur) / 5).toNat = 0 := by omega
        rw [hdiv]
        conv_rhs => rw [range_map_shift]
        simp
    · rw [genTimes, dif_neg hle, if_neg hle]

/-- The sweep equals the spec-side ascending progression of `days * 288 + 1`
stamps. -/
theorem schedule_eq (now : Int) (days : Nat) :
    schedule now days = ascendingTimes now days := by
  unfold schedule ascendingTimes
  rw [genTimes_eq]
  have hle : start_time now days ≤ now := by
    unfold start_time; omega
  rw [if_pos hle]
  have hdiv : ((now - start_time now days) / 5).toNat = days * 288 := by
    unfold start_time
    have : now - (now - (days : Int) * 1440) = (days : Int) * 1440 := by ring
    rw [this]
    omega
  rw [hdiv]

theorem schedule_length (now : Int) (days : Nat) :
    (schedule now days).length = days * 288 + 1 := by
  rw [schedule_eq]
  simp [ascendingTimes]

theorem runPairs_length (now : Int) (days nMeters : Nat) :
    (runPairs now days nMeters).length = (days * 288 + 1) * nMeters := by
  unfold runPairs
  rw [List.length_flatMap]
  have hmap : (schedule now days).map
      (List.length ∘ fun t => (meterList nMeters).map fun m => (t, m)) =
      List.replicate (schedule now days).length nMeters := by
    rw [← List.map_const']
    apply List.map_congr_left
    intro t _
    simp [meterList]
  rw [hmap, List.sum_replicate, smul_eq_mul, schedule_length]

theorem readingsRun_length (ent : Nat → Entropy) (now : Int)
    (days nMeters : Nat) :
    (readingsRun ent now days nMeters).length = (days * 288 + 1) * nMeters := by
  unfold readingsRun
  rw [List.length_map, List.enum_eq_enumFrom, List.enumFrom_length,
    runPairs_length]

/-- The flushed batches followed by the final buffer are exactly the input
buffer followed by the input sequence: nothing is dropped or duplicated. -/
theorem flushLoop_flatten (bs : Nat) :
    ∀ (l buf : List Reading),
      (flushLoop bs l buf).1.flatten ++ (flushLoop bs l buf).2 = buf ++ l := by
  intro l
  induction l with
  | nil => intro buf; simp [flushLoop]
  | cons r rs ih =>
    intro buf
    rw [flushLoop]
    by_cases h : bs ≤ (buf ++ [r]).length
    · simp only [h, if_pos]
      have := ih []
      simp only [List.flatten_cons, List.append_assoc, this, List.nil_append]
      simp
    · simp only [h, if_neg, not_false_iff]
      rw [ih (buf ++ [r])]
      simp

/-- Sizes of the flushed batches and of the final buffer: starting from a
buffer below capacity, every flushed batch has exactly `bs` rows and the
final buffer holds the remainder modulo `bs`. -/
theorem flushLoop_count (bs : Nat) :
    ∀ (l buf : List Reading), buf.length < bs →
      (flushLoop bs l buf).1.map List.length =
          List.replicate ((buf.length + l.length) / bs) bs ∧
        (flushLoop bs l buf).2.length = (buf.length + l.length) % bs := by
  intro l
  induction l with
  | nil =>
    intro buf hbuf
    constructor
    · simp [flushLoop, Nat.div_eq_of_lt hbuf]
    · simp [flushLoop, Nat.mod_eq_of_lt hbuf]
  | cons r rs ih =>
    intro buf hbuf
    rw [flushLoop]
    have hlen : (buf ++ [r]).length = buf.length + 1 := by simp
    by_cases h : bs ≤ (buf ++ [r]).length
    · have hfull : buf.length + 1 = bs := by omega
      have hpos : 0 < bs := by omega
      have hrec := ih [] (by simpa using hpos)
      simp only [h, if_pos]
      have htot : buf.length + (rs.length + 1) = rs.length + bs := by omega
      constructor
      · simp only [List.map_cons, hlen, hfull, hrec.1]
        rw [List.length_cons, htot, Nat.add_div_right _ hpos,
          List.replicate_succ]
        simp
      · simp only [hrec.2, List.length_cons, htot, Nat.add_mod_right]
        simp
    · have hlt : (buf ++ [r]).length < bs := by omega
      have hrec := ih (buf ++ [r]) hlt
      simp only [h, if_neg, not_false_iff]
      have htot : (buf ++ [r]).length + rs.length = buf.length + (rs.length + 1) := by
        simp; omega
      rw [hrec.1, hrec.2, htot]
      exact ⟨rfl, rfl⟩

/-- Sizes of the delivered batches of a whole run, in terms of the total
reading count `L`: `L / bs` full batches, then one batch of `L % bs` rows
if and only if `L` is not a multiple of `bs`. -/
theorem batchesRun_count (ent : Nat → Entropy) (bs : Nat) (now : Int)
    (days nMeters : Nat) (hbs : 1 ≤ bs) :
    (batchesRun ent bs now days nMeters).map List.length =
      List.replicate ((readingsRun ent now days nMeters).length / bs) bs ++
        (if (readingsRun ent now days nMeters).length % bs = 0 then []
         else [(readingsRun ent now days nMeters).length % bs]) := by
  unfold batchesRun
  have hcount := flushLoop_count bs (readingsRun ent now days nMeters) []
    (by simpa using hbs)
  simp only [List.length_nil, Nat.zero_add] at hcount
  by_cases hz : (readingsRun ent now days nMeters).length % bs = 0
  · have hempty :
        (flushLoop bs (readingsRun ent now days nMeters) []).2.isEmpty := by
      rw [List.isEmpty_iff_length_eq_zero, hcount.2]
      exact hz
    simp only [hempty, if_pos, hz, if_pos]
    rw [hcount.1]
    simp
  · have hne :
        ¬ (flushLoop bs (readingsRun ent now days nMeters) []).2.isEmpty := by
      rw [List.isEmpty_iff_length_eq_zero, hcount.2]
      exact hz
    rw [Bool.not_eq_true] at hne
    simp only [hne, Bool.false_eq_true, if_false, hz]
    rw [List.map_append, hcount.1]
    simp [hcount.2]

/-- With `total_readings = 0` and enough pending readings to fill one batch,
the loop delivers exactly that first batch, then aborts in the progress
report: generation stops after `bs - buf.length` further readings. -/
theorem loadLoop_crash (bs : Nat) :
    ∀ (l buf : List Reading), buf.length < bs →
      bs ≤ buf.length + l.length →
      loadLoop bs 0 l buf =
        ([buf ++ l.take (bs - buf.length)], l.take (bs - buf.length),
          false) := by
  intro l
  induction l with
  | nil =>
    intro buf h1 h2
    simp only [List.length_nil, Nat.add_zero] at h2
    omega
  | cons r rs ih =>
    intro buf h1 h2
    simp only [loadLoop]
    by_cases hf : bs ≤ (buf ++ [r]).length
    · rw [if_pos hf, if_pos trivial]
      have hone : bs - buf.length = 1 := by
        simp only [List.length_append, List.length_cons, List.length_nil]
          at hf
        omega
      rw [hone, List.take_succ_cons, List.take_zero]
    · rw [if_neg hf]
      have hlt : (buf ++ [r]).length < bs := by omega
      have hle : bs ≤ (buf ++ [r]).length + rs.length := by
        simp only [List.length_append, List.length_cons, List.length_nil]
        simp only [List.length_cons] at h2
        omega
      rw [ih (buf ++ [r]) hlt hle]
      have hk : bs - buf.length = (bs - (buf ++ [r]).length) + 1 := by
        simp only [List.length_append, List.length_cons, List.length_nil]
        omega
      rw [hk, List.take_succ_cons]
      simp

/-- With `total_readings` non-zero the progress report never divides by zero:
the loop completes, delivering the `flushLoop` batches followed by the final
flush and generating every pending reading. -/
theorem loadLoop_complete (bs T : Nat) (hT : T ≠ 0) :
    ∀ (l buf : List Reading),
      loadLoop bs T l buf =
        ((flushLoop bs l buf).1 ++
            (if (flushLoop bs l buf).2.isEmpty then []
             else [(flushLoop bs l buf).2]),
          l, true) := by
  intro l
  induction l with
  | nil =>
    intro buf
    simp [loadLoop, flushLoop]
  | cons r rs ih =>
    intro buf
    simp only [loadLoop, flushLoop]
    by_cases hf : bs ≤ (buf ++ [r]).length
    · rw [if_pos hf, if_pos hf, if_neg hT, ih []]
      simp
    · rw [if_neg hf, if_neg hf, ih (buf ++ [r])]

/-- Whether or not the run aborts, the concatenation of the delivered
batches equals the buffered rows followed by the readings actually
generated: delivery is exactly-once even on the crash path, because the
abort fires only immediately after a commit. -/
theorem loadLoop_flatten (bs T : Nat) :
    ∀ (l buf : List Reading),
      (loadLoop bs T l buf).1.flatten = buf ++ (loadLoop bs T l buf).2.1 := by
  intro l
  induction l with
  | nil =>
    intro buf
    by_cases hb : buf.isEmpty
    · rw [List.isEmpty_iff] at hb
      simp [loadLoop, hb]
    · simp [loadLoop, hb]
  | cons r rs ih =>
    intro buf
    simp only [loadLoop]
    by_cases hf : bs ≤ (buf ++ [r]).length
    · rw [if_pos hf]
      by_cases hT : T = 0
      · rw [if_pos hT]
        simp
      · rw [if_neg hT]
        simp only [List.flatten_cons]
        rw [ih []]
        simp
    · rw [if_neg hf]
      rw [ih (buf ++ [r])]
      simp

/-- On every run whose `total_readings` figure is non-zero (in particular
every run with `days ≥ 1` and at least one meter), the program behaves
exactly as the isolated data path: it delivers the `batchesRun` batches,
generates the full `readingsRun` sequence, and completes. -/
theorem loadRun_complete (ent : Nat → Entropy) (bs : Nat) (now : Int)
    (days nMeters : Nat) (hT : total_readings days nMeters ≠ 0) :
    loadRun ent bs now days nMeters =
      (batchesRun ent bs now days nMeters,
        readingsRun ent now days nMeters, true) := by
  unfold loadRun batchesRun
  rw [loadLoop_complete bs _ hT]
  by_cases hE : (flushLoop bs (readingsRun ent now days nMeters) []).2.isEmpty
  · rw [if_pos hE, if_pos hE, List.append_nil]
  · rw [if_neg hE, if_neg hE]

/-- Reading a digit string back as a number (most significant digit first,
leading zeros allowed). -/
def parseDigits (s : List Char) : Nat :=
  s.foldl (fun a c => 10 * a + (c.toNat - 48)) 0

theorem digit_char_val : ∀ d : Nat, d < 10 →
    (Char.ofNat (48 + d)).toNat - 48 = d := by decide

theorem parseDigits_aux (a : Nat) :
    ∀ L : List Nat, (∀ d ∈ L, d < 10) →
      List.foldl (fun x c => 10 * x + (c.toNat - 48)) a
          (L.reverse.map fun d => Char.ofNat (48 + d)) =
        a * 10 ^ L.length + Nat.ofDigits 10 L := by
  intro L
  induction L generalizing a with
  | nil => intro _; simp [Nat.ofDigits]
  | cons d t ih =>
    intro hd
    have hdt : ∀ x ∈ t, x < 10 := fun x hx => hd x (List.mem_cons_of_mem d hx)
    have hd10 : d < 10 := hd d (List.mem_cons_self d t)
    simp only [List.reverse_cons, List.map_append, List.map_cons,
      List.map_nil, List.foldl_append, List.foldl_cons, List.foldl_nil]
    rw [ih a hdt, digit_char_val d hd10, Nat.ofDigits_cons,
      List.length_cons, pow_succ]
    ring

theorem parseDigits_decChars (i : Nat) : parseDigits (decChars i) = i := by
  unfold parseDigits decChars
  rw [parseDigits_aux 0 (Nat.digits 10 i)
    (fun d hd => Nat.digits_lt_base (by omega) hd)]
  simp [Nat.ofDigits_digits]

theorem parseDigits_pad (k : Nat) (s : List Char) :
    parseDigits (List.replicate k '0' ++ s) = parseDigits s := by
  unfold parseDigits
  induction k with
  | zero => simp
  | succ n ih =>
    rw [List.replicate_succ, List.cons_append, List.foldl_cons]
    simpa using ih

theorem parseDigits_meterId (i : Nat) : parseDigits (meterId i).data = i := by
  unfold meterId
  rw [parseDigits_pad, parseDigits_decChars]

theorem meterId_injective : Function.Injective meterId := by
  intro i j h
  have : parseDigits (meterId i).data = parseDigits (meterId j).data := by
    rw [h]
  rwa [parseDigits_meterId, parseDigits_meterId] at this

theorem decChars_length (i : Nat) :
    (decChars i).length = (Nat.digits 10 i).length := by
  unfold decChars
  simp

theorem meterId_length_of_le (i : Nat) (h : i ≤ 9999999999) :
    (meterId i).length = 10 := by
  have hlen : (decChars i).length ≤ 10 := by
    rw [decChars_length]
    rcases Nat.eq_zero_or_pos i with hz | hpos
    · simp [hz]
    · rw [Nat.digits_len 10 i (by omega) (by omega)]
      have : i < 10 ^ 10 := by omega
      have hlog := (Nat.lt_pow_iff_log_lt (by omega) (by omega)).mp this
      omega
  unfold meterId
  rw [String.length_mk, List.length_append, List.length_replicate]
  omega

theorem meterId_big_length : (meterId (10 ^ 10)).length = 11 := by
  have h1 : (Nat.digits 10 (10 ^ 10)).length = Nat.log 10 (10 ^ 10) + 1 :=
    Nat.digits_len 10 _ (by norm_num) (by norm_num)
  have h2 : Nat.log 10 (10 ^ 10) = 10 := Nat.log_pow (by norm_num) 10
  have hlen : (decChars (10 ^ 10)).length = 11 := by
    rw [decChars_length]; omega
  unfold meterId
  rw [String.length_mk, List.length_append, List.length_replicate]
  omega

/-- Every meter numbered `10^10` or above gets an identifier wider than the
pad width of 10. -/
theorem meterId_wide (i : Nat) (hi : 10 ^ 10 ≤ i) :
    11 ≤ (meterId i).length := by
  have hpos : 0 < i := lt_of_lt_of_le (by norm_num) hi
  have hlog : 10 ≤ Nat.log 10 i := Nat.le_log_of_pow_le (by norm_num) hi
  have hdl : (Nat.digits 10 i).length = Nat.log 10 i + 1 :=
    Nat.digits_len 10 i (by norm_num) (by omega)
  have hlen : 11 ≤ (decChars i).length := by
    rw [decChars_length]
    omega
  unfold meterId
  rw [String.length_mk, List.length_append, List.length_replicate]
  omega

theorem meterList_length (n : Nat) : (meterList n).length = n := by
  simp [meterList]

theorem meterList_nodup (n : Nat) : (meterList n).Nodup :=
  List.Nodup.map meterId_injective (List.nodup_range' 1 n)

theorem meterList_mem (n : Nat) (s : String) :
    s ∈ meterList n ↔ ∃ i, 1 ≤ i ∧ i ≤ n ∧ s = meterId i := by
  unfold meterList
  rw [List.mem_map]
  constructor
  · rintro ⟨i, hi, rfl⟩
    rw [List.mem_range'] at hi
    obtain ⟨k, hk, rfl⟩ := hi
    exact ⟨1 + 1 * k, by omega, by omega, rfl⟩
  · rintro ⟨i, h1, h2, rfl⟩
    exact ⟨i, by rw [List.mem_range']; exact ⟨i - 1, by omega, by omega⟩, rfl⟩

/-- `power` is the band-dependent uniform draw (lines 67-72). -/
theorem generate_reading_power (e : Entropy) (m : String) (t : Int) :
    (generate_reading e m t).power =
      if (6 ≤ hourOf t ∧ hourOf t ≤ 9) ∨ (18 ≤ hourOf t ∧ hourOf t ≤ 22) then
        uniform 1500 3000 e.powerU
      else if 23 ≤ hourOf t ∨ hourOf t ≤ 5 then uniform 200 500 e.powerU
      else uniform 800 1500 e.powerU := rfl

theorem generate_reading_timestamp (e : Entropy) (m : String) (t : Int) :
    (generate_reading e m t).timestamp = t := rfl

theorem generate_reading_meter (e : Entropy) (m : String) (t : Int) :
    (generate_reading e m t).meter_id = m := rfl

theorem generate_reading_voltage (e : Entropy) (m : String) (t : Int) :
    (generate_reading e m t).voltage = gauss 230 5 e.voltageG := rfl

/-- `current = base_power / voltage` (line 76). -/
theorem generate_reading_current (e : Entropy) (m : String) (t : Int) :
    (generate_reading e m t).current =
      (generate_reading e m t).power / (generate_reading e m t).voltage := rfl

/-- `energy = base_power * (5/60) / 1000` (line 78). -/
theorem generate_reading_energy (e : Entropy) (m : String) (t : Int) :
    (generate_reading e m t).energy =
      (generate_reading e m t).power * ((5 : ℚ) / 60) / 1000 := rfl

/-! ## Claims -/

/-- **C1.** The three time-of-day power bands (Peak: hours 6-9 and 18-22;
Night: hour 23 and hours 0-5; Daytime: hours 10-17) are exhaustive and
mutually exclusive over the 24 hour values 0-23, and every reading produced
by `generate_reading` has `power` within the range of the unique band
determined by `timestamp.hour` (Peak `[1500, 3000]`, Night `[200, 500]`,
Daytime `[800, 1500]`), given that the underlying uniform unit sample lies
in `[0, 1]`. -/
theorem c1_band_partition_and_power_range (h : Int) (e : Entropy)
    (m : String) (t : Int) (hh0 : 0 ≤ h) (hh24 : h < 24)
    (hu0 : 0 ≤ e.powerU) (hu1 : e.powerU ≤ 1) :
    ((peakHour h ∨ nightHour h ∨ dayHour h) ∧
      ¬(peakHour h ∧ nightHour h) ∧ ¬(peakHour h ∧ dayHour h) ∧
      ¬(nightHour h ∧ dayHour h)) ∧
    (peakHour (hourOf t) →
      1500 ≤ (generate_reading e m t).power ∧
        (generate_reading e m t).power ≤ 3000) ∧
    (nightHour (hourOf t) →
      200 ≤ (generate_reading e m t).power ∧
        (generate_reading e m t).power ≤ 500) ∧
    (dayHour (hourOf t) →
      800 ≤ (generate_reading e m t).power ∧
        (generate_reading e m t).power ≤ 1500) := by
  refine ⟨by unfold peakHour nightHour dayHour; omega, ?_, ?_, ?_⟩
  · intro hp
    have hp' : (6 ≤ hourOf t ∧ hourOf t ≤ 9) ∨
        (18 ≤ hourOf t ∧ hourOf t ≤ 22) := hp
    rw [generate_reading_power, if_pos hp']
    exact uniform_bounds (by norm_num) hu0 hu1
  · intro hn
    have hn' : 23 ≤ hourOf t ∨ hourOf t ≤ 5 := hn
    have hnp : ¬((6 ≤ hourOf t ∧ hourOf t ≤ 9) ∨
        (18 ≤ hourOf t ∧ hourOf t ≤ 22)) := by
      unfold nightHour at hn; omega
    rw [generate_reading_power, if_neg hnp, if_pos hn']
    exact uniform_bounds (by norm_num) hu0 hu1
  · intro hd
    have hd1 : ¬((6 ≤ hourOf t ∧ hourOf t ≤ 9) ∨
        (18 ≤ hourOf t ∧ hourOf t ≤ 22)) := by
      unfold dayHour at hd; omega
    have hd2 : ¬(23 ≤ hourOf t ∨ hourOf t ≤ 5) := by
      unfold dayHour at hd; omega
    rw [generate_reading_power, if_neg hd1, if_neg hd2]
    exact uniform_bounds (by norm_num) hu0 hu1

/-- Witness for C1 at hour 3, unit sample 1/2, timestamp 0. -/
theorem c1_witness :
    (0 ≤ (3 : Int) ∧ (3 : Int) < 24 ∧
      0 ≤ (Entropy.mk (1/2) 0 0).powerU ∧ (Entropy.mk (1/2) 0 0).powerU ≤ 1) ∧
    (((peakHour 3 ∨ nightHour 3 ∨ dayHour 3) ∧
      ¬(peakHour 3 ∧ nightHour 3) ∧ ¬(peakHour 3 ∧ dayHour 3) ∧
      ¬(nightHour 3 ∧ dayHour 3)) ∧
    (peakHour (hourOf 0) →
      1500 ≤ (generate_reading (Entropy.mk (1/2) 0 0) "0000000001" 0).power ∧
        (generate_reading (Entropy.mk (1/2) 0 0) "0000000001" 0).power ≤ 3000) ∧
    (nightHour (hourOf 0) →
      200 ≤ (generate_reading (Entropy.mk (1/2) 0 0) "0000000001" 0).power ∧
        (generate_reading (Entropy.mk (1/2) 0 0) "0000000001" 0).power ≤ 500) ∧
    (dayHour (hourOf 0) →
      800 ≤ (generate_reading (Entropy.mk (1/2) 0 0) "0000000001" 0).power ∧
        (generate_reading (Entropy.mk (1/2) 0 0) "0000000001" 0).power ≤ 1500)) :=
  ⟨⟨by norm_num, by norm_num, by norm_num, by norm_num⟩,
    c1_band_partition_and_power_range 3 (Entropy.mk (1/2) 0 0) "0000000001" 0
      (by norm_num) (by norm_num) (by norm_num) (by norm_num)⟩

/-- **C2.** For every generated reading, `current` equals `power / voltage`
exactly and `energy` equals `power * interval_minutes/60/1000` exactly with
`interval_minutes = 5`; neither field is independently sampled (both are
exact functions of the other fields, consuming no random draw of their
own). -/
theorem c2_current_energy_derived (e : Entropy) (m : String) (t : Int) :
    (generate_reading e m t).current =
        (generate_reading e m t).power / (generate_reading e m t).voltage ∧
      (generate_reading e m t).energy =
        (generate_reading e m t).power * ((interval_minutes : ℚ) / 60) / 1000 ∧
      interval_minutes = 5 := by
  refine ⟨rfl, ?_, rfl⟩
  rw [generate_reading_energy]
  norm_num [interval_minutes]

/-- **C7 counterexample.** It is not the case that the energy field tracks an
arbitrary configured interval `I`: at the concrete reading generated for
timestamp 0 with zero samples (power 200 W), `energy` does not equal
`power * (I/60)/1000` for `I = 10`; the formula is hardcoded to 5 minutes. -/
theorem c7_counterexample :
    ¬ ∀ I : ℚ,
        (generate_reading (Entropy.mk 0 0 0) "0000000001" 0).energy =
          (generate_reading (Entropy.mk 0 0 0) "0000000001" 0).power *
            (I / 60) / 1000 := by
  intro hall
  have h10 := hall 10
  rw [generate_reading_energy, generate_reading_power] at h10
  norm_num [hourOf, uniform] at h10

/-- **C7 (amended).** The energy formula in `generate_reading` hardcodes the
5-minute interval: every reading satisfies `energy = power * (5/60) / 1000`.
This coincides with `power * (interval_minutes/60)/1000` only because the
loader's interval constant is also fixed at 5 minutes; the formula does not
reference the loader's interval and would not track a change to it. -/
theorem c7_energy_hardcoded (e : Entropy) (m : String) (t : Int) :
    (generate_reading e m t).energy =
        (generate_reading e m t).power * ((5 : ℚ) / 60) / 1000 ∧
      interval_minutes = 5 :=
  ⟨generate_reading_energy e m t, rfl⟩

/-- **C9.** `generate_reading` is total over its declared input domain: it is
a pure total function in the embedding, and under the precondition that the
sampled voltage is non-zero the division defining `current` is a genuine
field division, i.e. `current * voltage` recovers `power` (no error branch
exists in the function). -/
theorem c9_division_total (e : Entropy) (m : String) (t : Int)
    (hv : (generate_reading e m t).voltage ≠ 0) :
    (generate_reading e m t).current =
        (generate_reading e m t).power / (generate_reading e m t).voltage ∧
      (generate_reading e m t).current * (generate_reading e m t).voltage =
        (generate_reading e m t).power := by
  refine ⟨rfl, ?_⟩
  rw [generate_reading_current]
  exact div_mul_cancel₀ _ hv

/-- Witness for C9: with zero normal samples the voltage is exactly 230. -/
theorem c9_witness :
    (generate_reading (Entropy.mk 0 0 0) "0000000001" 0).voltage ≠ 0 ∧
      ((generate_reading (Entropy.mk 0 0 0) "0000000001" 0).current =
          (generate_reading (Entropy.mk 0 0 0) "0000000001" 0).power /
            (generate_reading (Entropy.mk 0 0 0) "0000000001" 0).voltage ∧
        (generate_reading (Entropy.mk 0 0 0) "0000000001" 0).current *
            (generate_reading (Entropy.mk 0 0 0) "0000000001" 0).voltage =
          (generate_reading (Entropy.mk 0 0 0) "0000000001" 0).power) :=
  ⟨by rw [generate_reading_voltage]; norm_num [gauss],
    c9_division_total (Entropy.mk 0 0 0) "0000000001" 0
      (by rw [generate_reading_voltage]; norm_num [gauss])⟩

/-- The loop's data path in isolation (what the program does whenever the
line-164 abort does not fire, by `loadRun_complete`): the full cartesian
sequence of readings ordered by outer loop = time (ascending from
`start_time` to `end_time` inclusive, stepping by the 5-minute interval)
and inner loop = meter (in identifier order), delivered in consecutive
batches where every batch except possibly the last has exactly `batch_size`
rows, every batch has between 1 and `batch_size` rows, and zero batches are
delivered when the total reading count is zero.  Supports the code-bug
analysis of the delivery claims: this is the behaviour the spec demands of
every run. -/
theorem dataPath_cartesian_order_and_batch_sizes (ent : Nat → Entropy)
    (now : Int) (days nMeters bs : Nat) (hbs : 1 ≤ bs) :
    (readingsRun ent now days nMeters).map
        (fun r => (r.timestamp, r.meter_id)) =
      (ascendingTimes now days).flatMap
        (fun u => (meterList nMeters).map fun v => (u, v)) ∧
    (∀ b ∈ (batchesRun ent bs now days nMeters).dropLast, b.length = bs) ∧
    (∀ b ∈ batchesRun ent bs now days nMeters,
      1 ≤ b.length ∧ b.length ≤ bs) ∧
    ((readingsRun ent now days nMeters).length = 0 →
      batchesRun ent bs now days nMeters = []) := by
  have hb0 : ([] : List Reading).length < bs := by simpa using hbs
  have hcount := flushLoop_count bs (readingsRun ent now days nMeters) [] hb0
  simp only [List.length_nil, Nat.zero_add] at hcount
  have hsz : ∀ b ∈ (flushLoop bs (readingsRun ent now days nMeters) []).1,
      b.length = bs := by
    intro b hb
    have hmem : b.length ∈
        (flushLoop bs (readingsRun ent now days nMeters) []).1.map
          List.length := List.mem_map_of_mem _ hb
    rw [hcount.1] at hmem
    exact List.eq_of_mem_replicate hmem
  have hrem :
      (flushLoop bs (readingsRun ent now days nMeters) []).2.length < bs := by
    rw [hcount.2]
    exact Nat.mod_lt _ (by omega)
  refine ⟨?_, ?_, ?_, ?_⟩
  · unfold readingsRun
    rw [List.map_map]
    have hsnd : ((fun r : Reading => (r.timestamp, r.meter_id)) ∘
        fun p : Nat × (Int × String) =>
          generate_reading (ent p.1) p.2.2 p.2.1) = Prod.snd := by
      funext p
      rfl
    rw [hsnd, List.enum_eq_enumFrom, List.enumFrom_map_snd]
    unfold runPairs
    rw [schedule_eq]
  · intro b hb
    unfold batchesRun at hb
    by_cases hE :
        (flushLoop bs (readingsRun ent now days nMeters) []).2.isEmpty
    · rw [if_pos hE] at hb
      exact hsz b ((List.dropLast_sublist _).subset hb)
    · rw [if_neg hE] at hb
      rw [List.dropLast_concat] at hb
      exact hsz b hb
  · intro b hb
    unfold batchesRun at hb
    by_cases hE :
        (flushLoop bs (readingsRun ent now days nMeters) []).2.isEmpty
    · rw [if_pos hE] at hb
      have := hsz b hb
      omega
    · rw [if_neg hE] at hb
      rcases List.mem_append.mp hb with hb1 | hb2
      · have := hsz b hb1
        omega
      · have hbeq : b =
            (flushLoop bs (readingsRun ent now days nMeters) []).2 :=
          List.mem_singleton.mp hb2
        have hne :
            (flushLoop bs (readingsRun ent now days nMeters) []).2.length ≠
              0 := by
          intro h0
          exact hE (List.isEmpty_iff_length_eq_zero.mpr h0)
        rw [hbeq]
        omega
  · intro hL
    have hnil : readingsRun ent now days nMeters = [] :=
      List.length_eq_zero.mp hL
    unfold batchesRun
    rw [hnil]
    rfl

/-- **C3 (failing input).** At `days = 0`, `meters = 2`, `batch_size = 1`
the program does not deliver the full cartesian sequence: `total_readings`
is zero, so the progress report of the first in-loop flush (line 164)
raises `ZeroDivisionError`; the run aborts having delivered a single
one-row batch, although the full cartesian sequence holds two readings. -/
theorem c3_crash_truncates_delivery :
    (loadRun (fun _ => Entropy.mk 0 0 0) 1 0 0 2).2.2 = false ∧
      (loadRun (fun _ => Entropy.mk 0 0 0) 1 0 0 2).1.map List.length =
        [1] ∧
      (readingsRun (fun _ => Entropy.mk 0 0 0) 0 0 2).length = 2 := by
  have hlen : (readingsRun (fun _ => Entropy.mk 0 0 0) 0 0 2).length = 2 := by
    rw [readingsRun_length]
  have hT : total_readings 0 2 = 0 := rfl
  have hcrash := loadLoop_crash 1
    (readingsRun (fun _ => Entropy.mk 0 0 0) 0 0 2) [] (by simp)
    (by simp [hlen])
  unfold loadRun
  rw [hT, hcrash]
  refine ⟨rfl, ?_, hlen⟩
  simp [List.length_take, hlen]

/-- **C4 (failing input).** At `days = 0`, `meters = 2`, `batch_size = 1`
the program generates only 1 reading, not `meter_count * (days*288 + 1) = 2`:
the line-164 `ZeroDivisionError` aborts generation right after the first
flush. -/
theorem c4_crash_truncates_count :
    (loadRun (fun _ => Entropy.mk 0 0 0) 1 0 0 2).2.1.length ≠
      2 * (0 * 288 + 1) := by
  have hlen : (readingsRun (fun _ => Entropy.mk 0 0 0) 0 0 2).length = 2 := by
    rw [readingsRun_length]
  have hT : total_readings 0 2 = 0 := rfl
  have hcrash := loadLoop_crash 1
    (readingsRun (fun _ => Entropy.mk 0 0 0) 0 0 2) [] (by simp)
    (by simp [hlen])
  unfold loadRun
  rw [hT, hcrash]
  simp [List.length_take, hlen]

/-- **C5 counterexample.** The run with `days = 1`, `meters = 2` does not
produce 576 readings: the inclusive time loop visits 289 timestamps, not
288. -/
theorem c5_counterexample :
    (readingsRun (fun _ => Entropy.mk 0 0 0) 0 1 2).length ≠ 576 := by
  rw [readingsRun_length]
  norm_num

/-- **C5 (amended).** In the run with `days = 1`, `meters = 2`,
`batch_size = 5` and the 5-minute interval, the loader produces
289 timestamps x 2 meters = 578 readings and delivers them as 115 full
batches of 5 rows plus one final batch of 3 rows. -/
theorem c5_day_run_batches (ent : Nat → Entropy) (now : Int) :
    (readingsRun ent now 1 2).length = 578 ∧
      (batchesRun ent 5 now 1 2).map List.length =
        List.replicate 115 5 ++ [3] := by
  have hlen := readingsRun_length ent now 1 2
  constructor
  · rw [hlen]
  · have hc := batchesRun_count ent 5 now 1 2 (by norm_num)
    rw [hlen] at hc
    norm_num at hc
    exact hc

/-- Edge cases of the isolated data path: with `days = 0`
(`start_time = end_time`) the sweep visits exactly one timestamp and
synthesizes one reading per meter; with zero meters it produces zero
readings and delivers zero batches.  The meters-zero half is also true of
the whole program (no flush ever happens, so line 164 never runs); the
days-zero half is what the spec demands but the program only achieves when
`meters < batch_size` — see `c8_crash_on_zero_days`. -/
theorem dataPath_edge_cases (ent : Nat → Entropy) (now : Int)
    (days n bs : Nat) :
    schedule now 0 = [now] ∧
      (readingsRun ent now 0 n).length = n ∧
      readingsRun ent now days 0 = [] ∧
      batchesRun ent bs now days 0 = [] := by
  have h0 : (readingsRun ent now days 0).length = 0 := by
    rw [readingsRun_length]
    omega
  have hvac : readingsRun ent now days 0 = [] := List.length_eq_zero.mp h0
  refine ⟨?_, ?_, hvac, ?_⟩
  · rw [schedule_eq]
    unfold ascendingTimes start_time
    have h1 : List.range (0 * 288 + 1) = [0] := rfl
    rw [h1, List.map_singleton]
    norm_num
  · rw [readingsRun_length]
    omega
  · unfold batchesRun
    rw [hvac]
    rfl

/-- **C8 (failing input).** The days-zero edge case does error in the code:
at `days = 0`, `meters = 2`, `batch_size = 1` the run does not complete
(the first in-loop flush raises `ZeroDivisionError` in the line-164
progress report) and generates only one reading instead of one per meter. -/
theorem c8_crash_on_zero_days :
    (loadRun (fun _ => Entropy.mk 0 0 0) 1 0 0 2).2.2 = false ∧
      (loadRun (fun _ => Entropy.mk 0 0 0) 1 0 0 2).2.1.length ≠ 2 := by
  have hlen : (readingsRun (fun _ => Entropy.mk 0 0 0) 0 0 2).length = 2 := by
    rw [readingsRun_length]
  have hT : total_readings 0 2 = 0 := rfl
  have hcrash := loadLoop_crash 1
    (readingsRun (fun _ => Entropy.mk 0 0 0) 0 0 2) [] (by simp)
    (by simp [hlen])
  unfold loadRun
  rw [hT, hcrash]
  refine ⟨rfl, ?_⟩
  simp [List.length_take, hlen]

/-- **C10.** Exactly-once delivery: the concatenation of all batches
delivered to the sink equals, element for element and in order, the full
sequence of readings generated — the buffer restarts empty after each flush
and the non-empty remainder is flushed exactly once, so no reading is
delivered twice or dropped (proved for every batch size, in particular all
`batch_size ≥ 1`). -/
theorem c10_exactly_once_delivery (ent : Nat → Entropy) (bs : Nat)
    (now : Int) (days nMeters : Nat) :
    (batchesRun ent bs now days nMeters).flatten =
      readingsRun ent now days nMeters := by
  unfold batchesRun
  have hj := flushLoop_flatten bs (readingsRun ent now days nMeters) []
  rw [List.nil_append] at hj
  by_cases hE :
      (flushLoop bs (readingsRun ent now days nMeters) []).2.isEmpty
  · rw [if_pos hE]
    rw [List.isEmpty_iff] at hE
    rw [hE, List.append_nil] at hj
    exact hj
  · rw [if_neg hE, List.flatten_concat]
    exact hj

/-- **C6 counterexample.** For `meter_count = 10^10` the generated
identifier set is not fixed-width: the identifiers of meters `1` (10
characters) and `10^10` (11 characters, exceeding the pad width) both occur
with different lengths. -/
theorem c6_counterexample :
    ¬ ∀ s ∈ meterList (10 ^ 10), ∀ u ∈ meterList (10 ^ 10),
        s.length = u.length := by
  intro hall
  have h1 : meterId 1 ∈ meterList (10 ^ 10) :=
    (meterList_mem _ _).mpr ⟨1, le_rfl, by norm_num, rfl⟩
  have h2 : meterId (10 ^ 10) ∈ meterList (10 ^ 10) :=
    (meterList_mem _ _).mpr ⟨10 ^ 10, by norm_num, le_rfl, rfl⟩
  have heq := hall _ h1 _ h2
  rw [meterId_length_of_le 1 (by norm_num), meterId_big_length] at heq
  omega

/-- **C6 (amended).** For every `meter_count`, the generated identifier list
consists of exactly `meter_count` distinct decimal strings, zero-padded on
the left to a minimum width of 10, covering the contiguous integer range
`1..meter_count` (and stable across the run: the list is computed once as a
pure function of `meter_count`).  The identifiers are fixed-width — all
exactly 10 characters — whenever `meter_count ≤ 9999999999`, while every
meter numbered `10^10` or above gets a wider identifier, exceeding the pad
width. -/
theorem c6_meter_identifiers (n : Nat) :
    (meterList n).length = n ∧ (meterList n).Nodup ∧
      (∀ s : String, s ∈ meterList n ↔ ∃ i, 1 ≤ i ∧ i ≤ n ∧ s = meterId i) ∧
      (n ≤ 9999999999 → ∀ s ∈ meterList n, s.length = 10) ∧
      (∀ i : Nat, 10 ^ 10 ≤ i → 11 ≤ (meterId i).length) := by
  refine ⟨meterList_length n, meterList_nodup n, meterList_mem n, ?_, ?_⟩
  · intro h s hs
    rw [meterList_mem] at hs
    obtain ⟨i, h1, h2, rfl⟩ := hs
    exact meterId_length_of_le i (by omega)
  · exact meterId_wide

/-- Witness for C6 at `meter_count = 3`, with the width implication
discharged there. -/
theorem c6_witness :
    3 ≤ 9999999999 ∧
      ((meterList 3).length = 3 ∧ (meterList 3).Nodup ∧
        (∀ s : String, s ∈ meterList 3 ↔ ∃ i, 1 ≤ i ∧ i ≤ 3 ∧ s = meterId i) ∧
        (∀ s ∈ meterList 3, s.length = 10) ∧
        (∀ i : Nat, 10 ^ 10 ≤ i → 11 ≤ (meterId i).length)) :=
  ⟨by norm_num,
    ⟨(c6_meter_identifiers 3).1, (c6_meter_identifiers 3).2.1,
      (c6_meter_identifiers 3).2.2.1,
      (c6_meter_identifiers 3).2.2.2.1 (by norm_num),
      (c6_meter_identifiers 3).2.2.2.2⟩⟩

end DirectLoader
